import Mathlib

/-!
Shallow embedding of the OCI distribution client and its local content cache
from `crates/publish/src/oci/mod.rs`.

Paths are modelled as lists of path components (`List String`); the on-disk
state of the cache is a single map from paths to file contents; blob bytes are
`List Nat`.  Network interaction is modelled by an abstract `Registry` value
(the manifest, its digest and a digest-indexed blob store) and an explicit
trace of fetch events, so that claims about the number and order of network
operations can be stated.
-/

namespace SpinOci

/-- Directory-name constant from `mod.rs`. -/
def CONFIG_DIR : String := "fermyon"

/-- Directory-name constant from `mod.rs`. -/
def REGISTRY_CACHE_DIR : String := "registry"

/-- Directory-name constant from `mod.rs`. -/
def OCI_CACHE_DIR : String := "oci"

/-- Directory-name constant from `mod.rs`. -/
def MANIFESTS_DIR : String := "manifests"

/-- Directory-name constant from `mod.rs`. -/
def WASM_DIR : String := "wasm"

/-- Directory-name constant from `mod.rs`. -/
def DATA_DIR : String := "data"

/-- Media type of a Wasm module layer (`oci_distribution::manifest::WASM_LAYER_MEDIA_TYPE`). -/
def WASM_LAYER_MEDIA_TYPE : String := "application/vnd.wasm.content.layer.v1+wasm"

/-- Media type of a data layer (`DATA_MEDIATYPE` in `mod.rs`). -/
def DATA_MEDIATYPE : String := "application/vnd.wasm.content.layer.v1+data"

/-- A parsed registry reference: `registry/repository[:tag]`. -/
structure Reference where
  registry : String
  repository : String
  tag : Option String
deriving DecidableEq

/-- Split a character list at the first occurrence of `sep`; `none` when `sep`
does not occur. -/
def splitFirst (sep : Char) : List Char → Option (List Char × List Char)
  | [] => none
  | c :: cs =>
    if c = sep then some ([], cs)
    else
      match splitFirst sep cs with
      | some (a, b) => some (c :: a, b)
      | none => none

/-- Modelled from the spec: reference parsing is performed by the external
`oci_distribution::Reference` implementation, which is not part of this
repository.  Spec, ReferenceResolver: a reference string has the form
`registry/repository:tag`; parsing fails on malformed input (missing
repository); the tag is optional. -/
def parseReference (s : String) : Option Reference :=
  match splitFirst '/' s.toList with
  | none => none
  | some (reg, rest) =>
    if reg.isEmpty then none
    else
      match splitFirst ':' rest with
      | none =>
        if rest.isEmpty then none
        else some ⟨String.mk reg, String.mk rest, none⟩
      | some (repo, tag) =>
        if repo.isEmpty || tag.isEmpty then none
        else some ⟨String.mk reg, String.mk repo, some (String.mk tag)⟩

/-- Modelled from the spec: `Reference::resolve_registry` of the external
`oci_distribution` crate resolves the registry component to a transport
endpoint; the spec describes no rewriting beyond trailing-slash stripping
(which happens in `Client::auth`, embedded below), so resolution yields the
registry component itself. -/
def resolveRegistry (r : Reference) : List Char :=
  r.registry.toList

/-- Embedding of `str::strip_suffix("/")`: remove one trailing `'/'`,
returning `none` when the string does not end with `'/'`. -/
def stripSuffixSlash (l : List Char) : Option (List Char) :=
  if l.getLast? = some '/' then some l.dropLast else none

/-- The server string computed at the start of `Client::auth`
(`resolve_registry().strip_suffix("/").unwrap_or_else(...)`). -/
def authServer (l : List Char) : List Char :=
  (stripSuffixSlash l).getD l

/-- The server string handed to the credential store for a reference. -/
def serverOf (r : Reference) : String :=
  String.mk (authServer (resolveRegistry r))

/-- Result of the `docker_credential::get_credential` lookup, as matched by
`Client::auth`. -/
inductive CredentialResult
  | usernamePassword (username password : String)
  | identityToken (token : String)
  | errConfigNotFound
  | errNoCredentialConfigured
  | errConfigReadError
  | errOther (msg : String)
deriving DecidableEq

/-- `oci_distribution::secrets::RegistryAuth` as used by the client. -/
inductive RegistryAuth
  | anonymous
  | basic (username password : String)
deriving DecidableEq

/-- Embedding of `Client::auth` (lines 297-319 of `mod.rs`): map the credential
lookup result for the registry server to a registry auth value, or fail. -/
def Client.auth (cred : CredentialResult) : Except String RegistryAuth :=
  match cred with
  | .errConfigNotFound => .ok .anonymous
  | .errNoCredentialConfigured => .ok .anonymous
  | .errConfigReadError => .ok .anonymous
  | .errOther _ => .error "Error handling docker configuration file"
  | .usernamePassword u p => .ok (.basic u p)
  | .identityToken _ => .ok .anonymous

/-- A layer descriptor of an OCI image manifest. -/
structure Layer where
  digest : String
  mediaType : String
deriving DecidableEq

/-- An OCI image manifest: a config descriptor digest plus an ordered list of
layers. -/
structure OciImageManifest where
  configDigest : String
  layers : List Layer
deriving DecidableEq

/-- Contents of one file in the cache: raw bytes, or the serialized manifest
(serialization kept abstract, a manifest file stores the manifest value). -/
inductive FileData
  | bytes (b : List Nat)
  | manifestFile (m : OciImageManifest)
deriving DecidableEq

/-- On-disk state of the cache: the root path and a map from paths to file
contents. -/
@[ext]
structure CacheState where
  root : List String
  files : List String → Option FileData

/-- `Cache::manifests_dir`. -/
def Cache.manifests_dir (root : List String) : List String :=
  root ++ [MANIFESTS_DIR]

/-- `Cache::wasm_dir`. -/
def Cache.wasm_dir (root : List String) : List String :=
  root ++ [WASM_DIR]

/-- `Cache::data_dir`. -/
def Cache.data_dir (root : List String) : List String :=
  root ++ [DATA_DIR]

/-- Path of a cached wasm blob: `wasm_dir().join(digest)`. -/
def Cache.wasm_path (root : List String) (digest : String) : List String :=
  Cache.wasm_dir root ++ [digest]

/-- Path of a cached data blob: `data_dir().join(digest)`. -/
def Cache.data_path (root : List String) (digest : String) : List String :=
  Cache.data_dir root ++ [digest]

/-- `Cache::manifest_for_reference`: `manifests_dir/<registry>/<repository>/<tag or latest>/manifest.json`. -/
def Cache.manifest_for_reference (root : List String) (r : Reference) : List String :=
  Cache.manifests_dir root ++ [r.registry] ++ [r.repository] ++ [r.tag.getD "latest"]
    ++ ["manifest.json"]

/-- `Cache::config_for_reference`: `manifests_dir/<registry>/<repository>/<tag or latest>/config.json`. -/
def Cache.config_for_reference (root : List String) (r : Reference) : List String :=
  Cache.manifests_dir root ++ [r.registry] ++ [r.repository] ++ [r.tag.getD "latest"]
    ++ ["config.json"]

/-- `Cache::new`: the cache root is the provided root (or the configuration
directory joined with `fermyon`), joined with `registry/oci`. -/
def Cache.newRoot (given : Option (List String)) (configDir : List String) : List String :=
  (given.getD (configDir ++ [CONFIG_DIR])) ++ [REGISTRY_CACHE_DIR] ++ [OCI_CACHE_DIR]

/-- The blob existence check inlined in `old_pull` (lines 232-234): a digest is
present when a file exists at its wasm path or at its data path. -/
def Cache.hasBlob (c : CacheState) (digest : String) : Bool :=
  (c.files (Cache.wasm_path c.root digest)).isSome
    || (c.files (Cache.data_path c.root digest)).isSome

/-- `Cache::write_wasm`: write blob bytes at the digest-keyed path in the wasm
directory. -/
def Cache.write_wasm (c : CacheState) (bytes : List Nat) (digest : String) : CacheState :=
  { c with
    files := fun p =>
      if p = Cache.wasm_path c.root digest then some (.bytes bytes) else c.files p }

/-- `Cache::write_data`: write blob bytes at the digest-keyed path in the data
directory. -/
def Cache.write_data (c : CacheState) (bytes : List Nat) (digest : String) : CacheState :=
  { c with
    files := fun p =>
      if p = Cache.data_path c.root digest then some (.bytes bytes) else c.files p }

/-- Write the pulled manifest into the reference-scoped cache directory
(`fs::write(&m, &manifest_json)` in `old_pull`). -/
def writeManifestFile (c : CacheState) (r : Reference) (m : OciImageManifest) : CacheState :=
  { c with
    files := fun p =>
      if p = Cache.manifest_for_reference c.root r then some (.manifestFile m)
      else c.files p }

/-- Write the pulled config bytes into the reference-scoped cache directory
(`fs::write(&c, &cfg)` in `old_pull`). -/
def writeConfigFile (c : CacheState) (r : Reference) (bytes : List Nat) : CacheState :=
  { c with
    files := fun p =>
      if p = Cache.config_for_reference c.root r then some (.bytes bytes) else c.files p }

/-- The remote registry as seen by one pull: the manifest the registry resolves
for the reference, the manifest digest, and the digest-indexed blob store. -/
structure Registry where
  manifest : OciImageManifest
  manifestDigest : String
  blob : String → List Nat

/-- Network fetch events recorded during a pull, tagged by call site. -/
inductive PullEvent
  | fetchManifest
  | fetchConfig (digest : String)
  | fetchLayer (digest : String)
deriving DecidableEq

/-- Registry operations recorded during a push. -/
inductive PushEvent
  | pushBlob (digest : String)
  | pushManifest
deriving DecidableEq

/-- A UTF-8 continuation byte (`0x80..=0xBF`). -/
def isContByte (b : Nat) : Bool := 0x80 ≤ b && b ≤ 0xBF

/-- Embedding of the success condition of `std::str::from_utf8`
(`old_pull` line 221 decodes the fetched config bytes and aborts the pull with
a `Utf8Error` when they are not valid UTF-8): strict UTF-8 validity, rejecting
overlong encodings, surrogates and code points above `U+10FFFF`. -/
def isValidUtf8 : List Nat → Bool
  | [] => true
  | b :: rest =>
    if b ≤ 0x7F then isValidUtf8 rest
    else if 0xC2 ≤ b && b ≤ 0xDF then
      match rest with
      | b1 :: rest1 => isContByte b1 && isValidUtf8 rest1
      | [] => false
    else if b = 0xE0 then
      match rest with
      | b1 :: b2 :: rest2 =>
        (0xA0 ≤ b1 && b1 ≤ 0xBF) && isContByte b2 && isValidUtf8 rest2
      | _ => false
    else if (0xE1 ≤ b && b ≤ 0xEC) || b = 0xEE || b = 0xEF then
      match rest with
      | b1 :: b2 :: rest2 => isContByte b1 && isContByte b2 && isValidUtf8 rest2
      | _ => false
    else if b = 0xED then
      match rest with
      | b1 :: b2 :: rest2 =>
        (0x80 ≤ b1 && b1 ≤ 0x9F) && isContByte b2 && isValidUtf8 rest2
      | _ => false
    else if b = 0xF0 then
      match rest with
      | b1 :: b2 :: b3 :: rest3 =>
        (0x90 ≤ b1 && b1 ≤ 0xBF) && isContByte b2 && isContByte b3 && isValidUtf8 rest3
      | _ => false
    else if 0xF1 ≤ b && b ≤ 0xF3 then
      match rest with
      | b1 :: b2 :: b3 :: rest3 =>
        isContByte b1 && isContByte b2 && isContByte b3 && isValidUtf8 rest3
      | _ => false
    else if b = 0xF4 then
      match rest with
      | b1 :: b2 :: b3 :: rest3 =>
        (0x80 ≤ b1 && b1 ≤ 0x8F) && isContByte b2 && isContByte b3 && isValidUtf8 rest3
      | _ => false
    else false

/-- One iteration of the layer loop of `old_pull` (lines 230-250): skip when the
digest is already present in the wasm or data directory, otherwise fetch the
blob and write it into the directory matching the layer's media type. -/
def pullLayer (reg : Registry) (c : CacheState) (layer : Layer) :
    CacheState × List PullEvent :=
  if Cache.hasBlob c layer.digest then (c, [])
  else
    let bytes := reg.blob layer.digest
    if layer.mediaType = WASM_LAYER_MEDIA_TYPE then
      (Cache.write_wasm c bytes layer.digest, [.fetchLayer layer.digest])
    else
      (Cache.write_data c bytes layer.digest, [.fetchLayer layer.digest])

/-- The layer loop of `old_pull`, threading the cache state and concatenating
the fetch events in layer order. -/
def pullLayers (reg : Registry) : CacheState → List Layer → CacheState × List PullEvent
  | c, [] => (c, [])
  | c, l :: ls =>
    let s1 := pullLayer reg c l
    let s2 := pullLayers reg s1.1 ls
    (s2.1, s1.2 ++ s2.2)

/-- Embedding of `Client::old_pull` (lines 201-255): parse the reference,
resolve credentials, fetch the manifest and write it into the reference-scoped
directory, fetch the config blob, decode it as UTF-8 (line 221 — a config blob
that is not valid UTF-8 aborts the pull with the decoding error, before the
config file is written and before the layer loop runs), write it next to the
manifest, then run the layer loop.  Returns the final cache state together
with the ordered trace of network fetches. -/
def old_pull (store : String → CredentialResult) (reg : Registry) (c : CacheState)
    (s : String) : Except String (CacheState × List PullEvent) :=
  match parseReference s with
  | none => .error "cannot parse reference"
  | some r =>
    match Client.auth (store (serverOf r)) with
    | .error e => .error e
    | .ok _ =>
      let c1 := writeManifestFile c r reg.manifest
      let cfgBytes := reg.blob reg.manifest.configDigest
      if isValidUtf8 cfgBytes then
        let c2 := writeConfigFile c1 r cfgBytes
        let s3 := pullLayers reg c2 reg.manifest.layers
        .ok (s3.1, .fetchManifest :: .fetchConfig reg.manifest.configDigest :: s3.2)
      else .error "invalid utf-8 sequence"

/-- Embedding of `Client::push` (lines 56-66): parse the reference and resolve
credentials, then return successfully.  The current implementation performs no
registry operation (the push logic is commented out in the source), so the
returned trace of push events is empty. -/
def Client.push (store : String → CredentialResult) (app : List Nat) (s : String) :
    Except String (List PushEvent) :=
  match parseReference s with
  | none => .error "cannot parse reference"
  | some r =>
    match Client.auth (store (serverOf r)) with
    | .error e => .error e
    | .ok _ =>
      let _ := app
      .ok []

/-- Events of a pull result (empty trace on failure). -/
def pullEvents (x : Except String (CacheState × List PullEvent)) : List PullEvent :=
  match x with
  | .ok y => y.2
  | .error _ => []

/-- Cache state of a pull result (the given state on failure). -/
def pullCache (c : CacheState) (x : Except String (CacheState × List PullEvent)) :
    CacheState :=
  match x with
  | .ok y => y.1
  | .error _ => c

/-- Number of layer-blob fetches in a trace. -/
def layerFetchTotal : List PullEvent → Nat
  | [] => 0
  | .fetchLayer _ :: es => 1 + layerFetchTotal es
  | _ :: es => layerFetchTotal es

/-- Number of layer-blob fetches for one specific digest in a trace. -/
def countEv (d : String) : List PullEvent → Nat
  | [] => 0
  | .fetchLayer d' :: es => (if d' = d then 1 else 0) + countEv d es
  | _ :: es => countEv d es

/-- The distinct layer digests of `ls` that are not present in cache `c`. -/
def uncachedDigests (c : CacheState) (ls : List Layer) : Finset String :=
  (ls.map Layer.digest).toFinset.filter (fun d => Cache.hasBlob c d = false)

/-- A concrete credential store with no configured credentials. -/
def exStore : String → CredentialResult := fun _ => .errConfigNotFound

/-- A concrete empty cache. -/
def exCache : CacheState := ⟨["r"], fun _ => none⟩

/-- The parsed form of the reference string `"example.com/app:v1"`. -/
def exRef : Reference := ⟨"example.com", "app", some "v1"⟩

/-- A concrete registry with one wasm layer and one data layer. -/
def exReg1 : Registry where
  manifest := ⟨"sha256:cfg",
    [⟨"sha256:aaa", WASM_LAYER_MEDIA_TYPE⟩, ⟨"sha256:bbb", DATA_MEDIATYPE⟩]⟩
  manifestDigest := "sha256:mmm"
  blob := fun _ => [1, 2]

/-- A concrete registry whose manifest lists the same digest twice. -/
def exRegDup : Registry where
  manifest := ⟨"sha256:cfg",
    [⟨"sha256:aaa", DATA_MEDIATYPE⟩, ⟨"sha256:aaa", DATA_MEDIATYPE⟩]⟩
  manifestDigest := "sha256:mmm"
  blob := fun _ => [1, 2]

/-- A concrete registry whose config blob is a single `0xFF` byte, which is not
valid UTF-8. -/
def exRegBadCfg : Registry where
  manifest := ⟨"sha256:cfg", [⟨"sha256:aaa", DATA_MEDIATYPE⟩]⟩
  manifestDigest := "sha256:mmm"
  blob := fun _ => [0xFF]

theorem wasm_path_eq (root : List String) (d : String) :
    Cache.wasm_path root d = root ++ [WASM_DIR, d] := by
  simp [Cache.wasm_path, Cache.wasm_dir]

theorem data_path_eq (root : List String) (d : String) :
    Cache.data_path root d = root ++ [DATA_DIR, d] := by
  simp [Cache.data_path, Cache.data_dir]

theorem manifest_path_eq (root : List String) (r : Reference) :
    Cache.manifest_for_reference root r =
      root ++ [MANIFESTS_DIR, r.registry, r.repository, r.tag.getD "latest",
        "manifest.json"] := by
  simp [Cache.manifest_for_reference, Cache.manifests_dir]

theorem config_path_eq (root : List String) (r : Reference) :
    Cache.config_for_reference root r =
      root ++ [MANIFESTS_DIR, r.registry, r.repository, r.tag.getD "latest",
        "config.json"] := by
  simp [Cache.config_for_reference, Cache.manifests_dir]

theorem wasm_path_inj (root : List String) {d d' : String}
    (h : Cache.wasm_path root d = Cache.wasm_path root d') : d = d' := by
  rw [wasm_path_eq, wasm_path_eq] at h
  simpa using List.append_cancel_left h

theorem data_path_inj (root : List String) {d d' : String}
    (h : Cache.data_path root d = Cache.data_path root d') : d = d' := by
  rw [data_path_eq, data_path_eq] at h
  simpa using List.append_cancel_left h

theorem wasm_path_ne_data_path (root : List String) (d d' : String) :
    Cache.wasm_path root d ≠ Cache.data_path root d' := by
  intro h
  rw [wasm_path_eq, data_path_eq] at h
  have h2 := List.append_cancel_left h
  simp [WASM_DIR, DATA_DIR] at h2

theorem wasm_path_ne_manifest_path (root : List String) (d : String) (r : Reference) :
    Cache.wasm_path root d ≠ Cache.manifest_for_reference root r := by
  intro h
  have hlen := congrArg List.length h
  rw [wasm_path_eq, manifest_path_eq] at hlen
  simp [List.length_append] at hlen

theorem data_path_ne_manifest_path (root : List String) (d : String) (r : Reference) :
    Cache.data_path root d ≠ Cache.manifest_for_reference root r := by
  intro h
  have hlen := congrArg List.length h
  rw [data_path_eq, manifest_path_eq] at hlen
  simp [List.length_append] at hlen

theorem wasm_path_ne_config_path (root : List String) (d : String) (r : Reference) :
    Cache.wasm_path root d ≠ Cache.config_for_reference root r := by
  intro h
  have hlen := congrArg List.length h
  rw [wasm_path_eq, config_path_eq] at hlen
  simp [List.length_append] at hlen

theorem data_path_ne_config_path (root : List String) (d : String) (r : Reference) :
    Cache.data_path root d ≠ Cache.config_for_reference root r := by
  intro h
  have hlen := congrArg List.length h
  rw [data_path_eq, config_path_eq] at hlen
  simp [List.length_append] at hlen

theorem write_wasm_root (c : CacheState) (b : List Nat) (d : String) :
    (Cache.write_wasm c b d).root = c.root := rfl

theorem write_data_root (c : CacheState) (b : List Nat) (d : String) :
    (Cache.write_data c b d).root = c.root := rfl

theorem hasBlob_write_wasm (c : CacheState) (b : List Nat) (d x : String) :
    Cache.hasBlob (Cache.write_wasm c b d) x =
      (if x = d then true else Cache.hasBlob c x) := by
  by_cases h : x = d
  · subst h
    simp [Cache.hasBlob, Cache.write_wasm]
  · have h1 : Cache.wasm_path c.root x ≠ Cache.wasm_path c.root d :=
      fun hc => h (wasm_path_inj c.root hc)
    have h2 : Cache.data_path c.root x ≠ Cache.wasm_path c.root d :=
      fun hc => wasm_path_ne_data_path c.root d x hc.symm
    simp [Cache.hasBlob, Cache.write_wasm, h, h1, h2]

theorem hasBlob_write_data (c : CacheState) (b : List Nat) (d x : String) :
    Cache.hasBlob (Cache.write_data c b d) x =
      (if x = d then true else Cache.hasBlob c x) := by
  by_cases h : x = d
  · subst h
    simp [Cache.hasBlob, Cache.write_data]
  · have h1 : Cache.data_path c.root x ≠ Cache.data_path c.root d :=
      fun hc => h (data_path_inj c.root hc)
    have h2 : Cache.wasm_path c.root x ≠ Cache.data_path c.root d :=
      wasm_path_ne_data_path c.root x d
    simp [Cache.hasBlob, Cache.write_data, h, h1, h2]

theorem hasBlob_writeManifestFile (c : CacheState) (r : Reference) (m : OciImageManifest)
    (x : String) : Cache.hasBlob (writeManifestFile c r m) x = Cache.hasBlob c x := by
  simp [Cache.hasBlob, writeManifestFile, wasm_path_ne_manifest_path,
    data_path_ne_manifest_path]

theorem hasBlob_writeConfigFile (c : CacheState) (r : Reference) (b : List Nat)
    (x : String) : Cache.hasBlob (writeConfigFile c r b) x = Cache.hasBlob c x := by
  simp [Cache.hasBlob, writeConfigFile, wasm_path_ne_config_path,
    data_path_ne_config_path]

theorem pullLayer_cached (reg : Registry) (c : CacheState) (l : Layer)
    (h : Cache.hasBlob c l.digest = true) : pullLayer reg c l = (c, []) := by
  simp [pullLayer, h]

theorem pullLayer_events_uncached (reg : Registry) (c : CacheState) (l : Layer)
    (h : Cache.hasBlob c l.digest = false) :
    (pullLayer reg c l).2 = [.fetchLayer l.digest] := by
  by_cases hm : l.mediaType = WASM_LAYER_MEDIA_TYPE <;> simp [pullLayer, h, hm]

theorem pullLayer_root (reg : Registry) (c : CacheState) (l : Layer) :
    (pullLayer reg c l).1.root = c.root := by
  by_cases h : Cache.hasBlob c l.digest <;>
    by_cases hm : l.mediaType = WASM_LAYER_MEDIA_TYPE <;>
      simp [pullLayer, h, hm, Cache.write_wasm, Cache.write_data]

theorem hasBlob_pullLayer_uncached (reg : Registry) (c : CacheState) (l : Layer)
    (h : Cache.hasBlob c l.digest = false) (x : String) :
    Cache.hasBlob (pullLayer reg c l).1 x =
      (if x = l.digest then true else Cache.hasBlob c x) := by
  by_cases hm : l.mediaType = WASM_LAYER_MEDIA_TYPE <;>
    simp [pullLayer, h, hm, hasBlob_write_wasm, hasBlob_write_data]

theorem hasBlob_pullLayer_mono (reg : Registry) (c : CacheState) (l : Layer)
    (x : String) (h : Cache.hasBlob c x = true) :
    Cache.hasBlob (pullLayer reg c l).1 x = true := by
  by_cases hc : Cache.hasBlob c l.digest
  · simp [pullLayer_cached reg c l hc, h]
  · rw [hasBlob_pullLayer_uncached reg c l (by simpa using hc)]
    by_cases hx : x = l.digest <;> simp [hx, h]

theorem pullLayers_root (reg : Registry) (ls : List Layer) (c : CacheState) :
    (pullLayers reg c ls).1.root = c.root := by
  induction ls generalizing c with
  | nil => simp [pullLayers]
  | cons l ls ih =>
    simp only [pullLayers]
    rw [ih, pullLayer_root]

theorem layerFetchTotal_append (a b : List PullEvent) :
    layerFetchTotal (a ++ b) = layerFetchTotal a + layerFetchTotal b := by
  induction a with
  | nil => simp [layerFetchTotal]
  | cons e es ih =>
    cases e <;> simp [layerFetchTotal, ih]
    omega

theorem countEv_append (d : String) (a b : List PullEvent) :
    countEv d (a ++ b) = countEv d a + countEv d b := by
  induction a with
  | nil => simp [countEv]
  | cons e es ih =>
    cases e <;> simp [countEv, ih]
    omega

theorem uncachedDigests_cons_cached (c : CacheState) (l : Layer) (ls : List Layer)
    (h : Cache.hasBlob c l.digest = true) :
    uncachedDigests c (l :: ls) = uncachedDigests c ls := by
  simp [uncachedDigests, Finset.filter_insert, h]

theorem uncachedDigests_cons_uncached (c : CacheState) (l : Layer) (ls : List Layer)
    (h : Cache.hasBlob c l.digest = false) :
    uncachedDigests c (l :: ls) = insert l.digest (uncachedDigests c ls) := by
  simp [uncachedDigests, Finset.filter_insert, h]

theorem uncachedDigests_pullLayer_uncached (reg : Registry) (c : CacheState)
    (l : Layer) (ls : List Layer) (h : Cache.hasBlob c l.digest = false) :
    uncachedDigests (pullLayer reg c l).1 ls = (uncachedDigests c ls).erase l.digest := by
  apply Finset.ext
  intro x
  simp only [uncachedDigests, Finset.mem_filter, Finset.mem_erase,
    hasBlob_pullLayer_uncached reg c l h x]
  by_cases hx : x = l.digest <;> simp [hx]

theorem layerFetchTotal_pullLayers (reg : Registry) (ls : List Layer) (c : CacheState) :
    layerFetchTotal (pullLayers reg c ls).2 = (uncachedDigests c ls).card := by
  induction ls generalizing c with
  | nil => simp [pullLayers, layerFetchTotal, uncachedDigests]
  | cons l ls ih =>
    by_cases h : Cache.hasBlob c l.digest
    · simp only [pullLayers, pullLayer_cached reg c l h]
      rw [List.nil_append, ih, uncachedDigests_cons_cached c l ls h]
    · have h' : Cache.hasBlob c l.digest = false := by simpa using h
      simp only [pullLayers, layerFetchTotal_append,
        pullLayer_events_uncached reg c l h', ih,
        uncachedDigests_pullLayer_uncached reg c l ls h',
        uncachedDigests_cons_uncached c l ls h']
      by_cases hm : l.digest ∈ uncachedDigests c ls
      · rw [Finset.card_erase_of_mem hm, Finset.insert_eq_self.2 hm]
        have hpos : 0 < (uncachedDigests c ls).card :=
          Finset.card_pos.2 ⟨l.digest, hm⟩
        simp [layerFetchTotal]
        omega
      · rw [Finset.erase_eq_of_not_mem hm, Finset.card_insert_of_not_mem hm]
        simp [layerFetchTotal]
        omega

theorem countEv_pullLayers (reg : Registry) (d : String) (ls : List Layer)
    (c : CacheState) :
    countEv d (pullLayers reg c ls).2 =
      (if Cache.hasBlob c d = true then 0
       else if d ∈ ls.map Layer.digest then 1 else 0) := by
  induction ls generalizing c with
  | nil => simp [pullLayers, countEv]
  | cons l ls ih =>
    by_cases h : Cache.hasBlob c l.digest
    · simp only [pullLayers, pullLayer_cached reg c l h, List.nil_append, ih]
      by_cases hd : Cache.hasBlob c d
      · simp [hd]
      · have hne : d ≠ l.digest := fun he => hd (he ▸ h)
        simp [hd, hne]
    · have h' : Cache.hasBlob c l.digest = false := by simpa using h
      simp only [pullLayers, countEv_append, pullLayer_events_uncached reg c l h', ih,
        hasBlob_pullLayer_uncached reg c l h' d]
      by_cases hd : d = l.digest
      · subst hd
        simp [countEv, h']
      · have hne : ¬ l.digest = d := fun he => hd he.symm
        simp only [countEv, hne, if_false, if_neg hd]
        by_cases hc : Cache.hasBlob c d <;> simp [hc, hd, List.mem_cons]

theorem pullLayers_files_preserved (reg : Registry) (ls : List Layer)
    (c : CacheState) (p : List String)
    (hw : ∀ x, p ≠ Cache.wasm_path c.root x)
    (hd : ∀ x, p ≠ Cache.data_path c.root x) :
    (pullLayers reg c ls).1.files p = c.files p := by
  induction ls generalizing c with
  | nil => simp [pullLayers]
  | cons l ls ih =>
    simp only [pullLayers]
    have hroot := pullLayer_root reg c l
    have hstep : (pullLayer reg c l).1.files p = c.files p := by
      by_cases h : Cache.hasBlob c l.digest
      · simp [pullLayer_cached reg c l h]
      · by_cases hm : l.mediaType = WASM_LAYER_MEDIA_TYPE <;>
          simp [pullLayer, h, hm, Cache.write_wasm, Cache.write_data,
            hw l.digest, hd l.digest]
    rw [ih (pullLayer reg c l).1 (hroot ▸ hw) (hroot ▸ hd), hstep]

theorem writeManifestFile_root (c : CacheState) (r : Reference) (m : OciImageManifest) :
    (writeManifestFile c r m).root = c.root := rfl

theorem writeConfigFile_root (c : CacheState) (r : Reference) (b : List Nat) :
    (writeConfigFile c r b).root = c.root := rfl

theorem manifest_path_ne_config_path (root : List String) (r : Reference) :
    Cache.manifest_for_reference root r ≠ Cache.config_for_reference root r := by
  intro h
  rw [manifest_path_eq, config_path_eq] at h
  have h2 := List.append_cancel_left h
  simp at h2

theorem old_pull_ok (store : String → CredentialResult) (reg : Registry)
    (c : CacheState) (s : String) (r : Reference) (a : RegistryAuth)
    (h : parseReference s = some r)
    (ha : Client.auth (store (serverOf r)) = .ok a)
    (hu : isValidUtf8 (reg.blob reg.manifest.configDigest) = true) :
    old_pull store reg c s = .ok
      ((pullLayers reg (writeConfigFile (writeManifestFile c r reg.manifest) r
          (reg.blob reg.manifest.configDigest)) reg.manifest.layers).1,
        .fetchManifest :: .fetchConfig reg.manifest.configDigest ::
          (pullLayers reg (writeConfigFile (writeManifestFile c r reg.manifest) r
            (reg.blob reg.manifest.configDigest)) reg.manifest.layers).2) := by
  simp [old_pull, h, ha, hu]

theorem hasBlob_meta_writes (c : CacheState) (r : Reference) (m : OciImageManifest)
    (bytes : List Nat) (x : String) :
    Cache.hasBlob (writeConfigFile (writeManifestFile c r m) r bytes) x
      = Cache.hasBlob c x := by
  rw [hasBlob_writeConfigFile, hasBlob_writeManifestFile]

theorem uncachedDigests_congr {c c' : CacheState}
    (h : ∀ x, Cache.hasBlob c' x = Cache.hasBlob c x) (ls : List Layer) :
    uncachedDigests c' ls = uncachedDigests c ls := by
  apply Finset.ext
  intro x
  simp [uncachedDigests, h]

/-- C3: after writing a blob under its digest into either category, the
existence check across both blob categories returns true, and the file at the
digest-keyed path holds exactly the written bytes. -/
theorem write_blob_then_has_blob_and_read (c : CacheState) (b : List Nat) (d : String) :
    (Cache.hasBlob (Cache.write_wasm c b d) d = true ∧
      (Cache.write_wasm c b d).files (Cache.wasm_path c.root d) = some (.bytes b)) ∧
    (Cache.hasBlob (Cache.write_data c b d) d = true ∧
      (Cache.write_data c b d).files (Cache.data_path c.root d) = some (.bytes b)) := by
  refine ⟨⟨?_, ?_⟩, ?_, ?_⟩ <;>
    simp [Cache.hasBlob, Cache.write_wasm, Cache.write_data]

/-- C4: writing the same bytes under the same digest twice leaves the cache
state exactly as after a single write (so the stored content is unchanged and
equal to that single blob's bytes); the write itself has no failure case beyond
the I/O errors of the underlying filesystem write. -/
theorem write_blob_idempotent (c : CacheState) (b : List Nat) (d : String) :
    Cache.write_wasm (Cache.write_wasm c b d) b d = Cache.write_wasm c b d ∧
    Cache.write_data (Cache.write_data c b d) b d = Cache.write_data c b d ∧
    (Cache.write_wasm (Cache.write_wasm c b d) b d).files (Cache.wasm_path c.root d)
      = some (.bytes b) ∧
    (Cache.write_data (Cache.write_data c b d) b d).files (Cache.data_path c.root d)
      = some (.bytes b) := by
  refine ⟨?_, ?_, ?_, ?_⟩
  · refine CacheState.ext rfl (funext fun p => ?_)
    by_cases hp : p = Cache.wasm_path c.root d <;> simp [Cache.write_wasm, hp]
  · refine CacheState.ext rfl (funext fun p => ?_)
    by_cases hp : p = Cache.data_path c.root d <;> simp [Cache.write_data, hp]
  · simp [Cache.write_wasm]
  · simp [Cache.write_data]

/-- C5: the cache layout is a deterministic function of the root and the
reference components: the manifest lives at
`<root>/manifests/<registry>/<repository>/<tag>/manifest.json`, the config at
`config.json` in the same directory, the tag component defaults to `"latest"`
when the reference carries no tag, and blobs live at `<root>/wasm/<digest>` and
`<root>/data/<digest>`. -/
theorem cache_layout_paths (root : List String) (r : Reference) (d : String) :
    Cache.manifest_for_reference root r =
      root ++ ["manifests", r.registry, r.repository, r.tag.getD "latest",
        "manifest.json"] ∧
    Cache.config_for_reference root r =
      root ++ ["manifests", r.registry, r.repository, r.tag.getD "latest",
        "config.json"] ∧
    (Cache.manifest_for_reference root r).dropLast
      = (Cache.config_for_reference root r).dropLast ∧
    Cache.manifest_for_reference root ⟨r.registry, r.repository, none⟩ =
      root ++ ["manifests", r.registry, r.repository, "latest", "manifest.json"] ∧
    Cache.wasm_path root d = root ++ ["wasm", d] ∧
    Cache.data_path root d = root ++ ["data", d] := by
  refine ⟨?_, ?_, ?_, ?_, ?_, ?_⟩ <;>
    simp [Cache.manifest_for_reference, Cache.config_for_reference,
      Cache.manifests_dir, Cache.wasm_path, Cache.wasm_dir, Cache.data_path,
      Cache.data_dir, MANIFESTS_DIR, WASM_DIR, DATA_DIR]

/-- C6: credential resolution yields basic auth for a username/password pair,
anonymous auth for an identity token, anonymous auth when the credential
config is missing, not configured or unreadable, and a fatal error for any
other credential-store failure. -/
theorem auth_credential_resolution (u p t m : String) :
    Client.auth (.usernamePassword u p) = .ok (.basic u p) ∧
    Client.auth (.identityToken t) = .ok .anonymous ∧
    Client.auth .errConfigNotFound = .ok .anonymous ∧
    Client.auth .errNoCredentialConfigured = .ok .anonymous ∧
    Client.auth .errConfigReadError = .ok .anonymous ∧
    Client.auth (.errOther m) = .error "Error handling docker configuration file" :=
  ⟨rfl, rfl, rfl, rfl, rfl, rfl⟩

/-- C9: the server string handed to the credential store is the resolved
registry with any trailing slash stripped; since a parsed registry component
contains no slash, that server string never ends with `'/'` (and the embedded
`strip_suffix` does strip a trailing slash when one is present). -/
theorem auth_server_no_trailing_slash (r : Reference)
    (h : ('/' : Char) ∉ r.registry.toList) :
    (authServer (resolveRegistry r)).getLast? ≠ some '/' ∧
    serverOf r = r.registry ∧
    (∀ l : List Char, stripSuffixSlash (l ++ ['/']) = some l) := by
  have hne : (resolveRegistry r).getLast? ≠ some '/' := by
    intro hc
    exact h (List.mem_of_mem_getLast? hc)
  have hstrip : stripSuffixSlash (resolveRegistry r) = none := by
    simp [stripSuffixSlash, hne]
  refine ⟨?_, ?_, ?_⟩
  · rw [authServer, hstrip]
    exact hne
  · simp only [serverOf, authServer, hstrip, Option.getD_none]
    rfl
  · intro l
    simp [stripSuffixSlash]

/-- Witness for C9 at the concrete reference `example.com/app:v1`. -/
theorem auth_server_no_trailing_slash_witness :
    ('/' : Char) ∉ exRef.registry.toList ∧
    (authServer (resolveRegistry exRef)).getLast? ≠ some '/' :=
  ⟨by decide, (auth_server_no_trailing_slash exRef (by decide)).1⟩

/-- C1: the spec requires `push` to transfer the config blob, each layer blob
and then the manifest; the implementation of `Client::push` only parses the
reference and resolves credentials, performs no registry operation at all and
returns unit, contradicting its own doc comment ("Push a Spin application to
an OCI registry").  At the concrete valid reference below the recorded trace
of registry operations is empty. -/
theorem push_performs_no_registry_operation :
    Client.push exStore [7] "registry.example.com/myapp:1.0" = .ok [] := by
  rfl

/-- C8: on a reference string that fails to parse, both push and pull return
the parse error immediately: no network fetch is recorded and no cache state
is produced. -/
theorem malformed_reference_fails_first
    (store : String → CredentialResult) (reg : Registry) (c : CacheState)
    (app : List Nat) (s : String) (h : parseReference s = none) :
    Client.push store app s = .error "cannot parse reference" ∧
    old_pull store reg c s = .error "cannot parse reference" := by
  constructor <;> simp [Client.push, old_pull, h]

/-- Witness for C8 at the malformed reference `"not-a-valid-ref"`. -/
theorem malformed_reference_fails_first_witness :
    parseReference "not-a-valid-ref" = none ∧
    Client.push exStore [] "not-a-valid-ref" = .error "cannot parse reference" :=
  ⟨by decide,
   (malformed_reference_fails_first exStore exReg1 exCache [] "not-a-valid-ref"
      (by decide)).1⟩

/-- C7: an uncached layer fetched during pull is written into the storage
category matching its media type: a wasm-module layer into the wasm blob
directory, a data layer into the data blob directory. -/
theorem layer_written_to_matching_category (reg : Registry) (c : CacheState)
    (l : Layer) (h : Cache.hasBlob c l.digest = false) :
    (l.mediaType = WASM_LAYER_MEDIA_TYPE →
      (pullLayer reg c l).1.files (Cache.wasm_path c.root l.digest)
        = some (.bytes (reg.blob l.digest))) ∧
    (l.mediaType = DATA_MEDIATYPE →
      (pullLayer reg c l).1.files (Cache.data_path c.root l.digest)
        = some (.bytes (reg.blob l.digest))) := by
  constructor
  · intro hm
    simp [pullLayer, h, hm, Cache.write_wasm]
  · intro hm
    have hne : ¬ l.mediaType = WASM_LAYER_MEDIA_TYPE := by
      rw [hm]
      decide
    simp [pullLayer, h, hne, Cache.write_data]

/-- Witness for C7 at a concrete uncached wasm layer. -/
theorem layer_written_to_matching_category_witness :
    Cache.hasBlob exCache "sha256:aaa" = false ∧
    (pullLayer exReg1 exCache ⟨"sha256:aaa", WASM_LAYER_MEDIA_TYPE⟩).1.files
        (Cache.wasm_path exCache.root "sha256:aaa")
      = some (.bytes (exReg1.blob "sha256:aaa")) :=
  ⟨rfl,
   (layer_written_to_matching_category exReg1 exCache
      ⟨"sha256:aaa", WASM_LAYER_MEDIA_TYPE⟩ rfl).1 rfl⟩

/-- C10 counterexample: at a registry whose config blob is the single byte
`0xFF` (not valid UTF-8), the pull aborts with the UTF-8 decoding error and
the config file is never written, refuting the claim that the config blob is
rewritten into the reference-scoped cache directory on every pull. -/
theorem pull_aborts_on_invalid_utf8_config :
    old_pull exStore exRegBadCfg exCache "example.com/app:v1" =
      .error "invalid utf-8 sequence" ∧
    (pullCache exCache (old_pull exStore exRegBadCfg exCache "example.com/app:v1")).files
      (Cache.config_for_reference exCache.root exRef) = none :=
  ⟨rfl, rfl⟩

/-- C10 (amended): every pull whose fetched config blob is valid UTF-8 fetches
the manifest and then the config blob from the registry before anything else
(hence at least two network fetches, regardless of the cache contents), and
rewrites both into the reference-scoped cache directory unconditionally; only
layer blobs are deduplicated.  (A config blob that is not valid UTF-8 aborts
the pull with the decoding error before the config file is written.) -/
theorem pull_refetches_manifest_and_config
    (store : String → CredentialResult) (reg : Registry) (c : CacheState)
    (s : String) (r : Reference) (a : RegistryAuth)
    (h : parseReference s = some r)
    (ha : Client.auth (store (serverOf r)) = .ok a)
    (hu : isValidUtf8 (reg.blob reg.manifest.configDigest) = true) :
    (pullEvents (old_pull store reg c s)).take 2 =
      [.fetchManifest, .fetchConfig reg.manifest.configDigest] ∧
    2 ≤ (pullEvents (old_pull store reg c s)).length ∧
    (pullCache c (old_pull store reg c s)).files (Cache.manifest_for_reference c.root r)
      = some (.manifestFile reg.manifest) ∧
    (pullCache c (old_pull store reg c s)).files (Cache.config_for_reference c.root r)
      = some (.bytes (reg.blob reg.manifest.configDigest)) := by
  have e := old_pull_ok store reg c s r a h ha hu
  rw [e]
  simp only [pullEvents, pullCache]
  refine ⟨rfl, by simp, ?_, ?_⟩
  · rw [pullLayers_files_preserved reg reg.manifest.layers
      (writeConfigFile (writeManifestFile c r reg.manifest) r
        (reg.blob reg.manifest.configDigest))
      (Cache.manifest_for_reference c.root r)
      (fun x => Ne.symm (wasm_path_ne_manifest_path c.root x r))
      (fun x => Ne.symm (data_path_ne_manifest_path c.root x r))]
    simp [writeConfigFile, writeManifestFile, writeManifestFile_root,
      manifest_path_ne_config_path c.root r]
  · rw [pullLayers_files_preserved reg reg.manifest.layers
      (writeConfigFile (writeManifestFile c r reg.manifest) r
        (reg.blob reg.manifest.configDigest))
      (Cache.config_for_reference c.root r)
      (fun x => Ne.symm (wasm_path_ne_config_path c.root x r))
      (fun x => Ne.symm (data_path_ne_config_path c.root x r))]
    simp [writeConfigFile, writeManifestFile_root]

/-- Witness for the amended C10 at a concrete reference, registry and empty
cache, whose config blob `[1, 2]` is valid UTF-8. -/
theorem pull_refetches_manifest_and_config_witness :
    parseReference "example.com/app:v1" = some exRef ∧
    isValidUtf8 (exReg1.blob exReg1.manifest.configDigest) = true ∧
    (pullEvents (old_pull exStore exReg1 exCache "example.com/app:v1")).take 2 =
      [.fetchManifest, .fetchConfig exReg1.manifest.configDigest] :=
  ⟨by decide, by decide,
   (pull_refetches_manifest_and_config exStore exReg1 exCache "example.com/app:v1"
      exRef .anonymous (by decide) rfl (by decide)).1⟩

/-- C2 counterexample: a manifest listing the same uncached digest in two
layers (N = 2 layers, K = 0 cached) triggers exactly one layer fetch, not
N − K = 2: the blob written while handling the first layer makes the existence
check succeed for the second. -/
theorem pull_fetch_count_counterexample :
    layerFetchTotal (pullEvents (old_pull exStore exRegDup exCache
        "example.com/app:v1")) = 1 ∧
    exRegDup.manifest.layers.length = 2 ∧
    exRegDup.manifest.layers.countP (fun l => Cache.hasBlob exCache l.digest) = 0 ∧
    layerFetchTotal (pullEvents (old_pull exStore exRegDup exCache
        "example.com/app:v1")) ≠
      exRegDup.manifest.layers.length -
        exRegDup.manifest.layers.countP (fun l => Cache.hasBlob exCache l.digest) := by
  refine ⟨by decide, by decide, by decide, by decide⟩

/-- C2 (amended): a pull whose config blob decodes as UTF-8 performs exactly
one layer-blob fetch per distinct uncached layer digest (equal to N − K when
the N layer digests are pairwise distinct); a digest already cached in either
blob directory is fetched zero times, and an uncached digest occurring among
the layers is fetched exactly once, even when several layers carry it. -/
theorem pull_layer_fetch_dedup
    (store : String → CredentialResult) (reg : Registry) (c : CacheState)
    (s : String) (r : Reference) (a : RegistryAuth)
    (h : parseReference s = some r)
    (ha : Client.auth (store (serverOf r)) = .ok a)
    (hu : isValidUtf8 (reg.blob reg.manifest.configDigest) = true) :
    layerFetchTotal (pullEvents (old_pull store reg c s)) =
      (uncachedDigests c reg.manifest.layers).card ∧
    (∀ d, Cache.hasBlob c d = true →
      countEv d (pullEvents (old_pull store reg c s)) = 0) ∧
    (∀ d, Cache.hasBlob c d = false → d ∈ reg.manifest.layers.map Layer.digest →
      countEv d (pullEvents (old_pull store reg c s)) = 1) := by
  have e := old_pull_ok store reg c s r a h ha hu
  rw [e]
  simp only [pullEvents]
  have hblob : ∀ x,
      Cache.hasBlob (writeConfigFile (writeManifestFile c r reg.manifest) r
        (reg.blob reg.manifest.configDigest)) x = Cache.hasBlob c x :=
    hasBlob_meta_writes c r reg.manifest (reg.blob reg.manifest.configDigest)
  refine ⟨?_, ?_, ?_⟩
  · simp only [layerFetchTotal]
    rw [layerFetchTotal_pullLayers, uncachedDigests_congr hblob]
  · intro d hd
    simp only [countEv]
    simp [countEv_pullLayers, hblob, hd]
  · intro d hd hm
    simp only [countEv]
    simp [countEv_pullLayers, hblob, hd, hm]

/-- Witness for the amended C2 at a concrete reference, registry and empty
cache, whose config blob `[1, 2]` is valid UTF-8. -/
theorem pull_layer_fetch_dedup_witness :
    parseReference "example.com/app:v1" = some exRef ∧
    isValidUtf8 (exReg1.blob exReg1.manifest.configDigest) = true ∧
    layerFetchTotal (pullEvents (old_pull exStore exReg1 exCache
        "example.com/app:v1")) =
      (uncachedDigests exCache exReg1.manifest.layers).card :=
  ⟨by decide, by decide,
   (pull_layer_fetch_dedup exStore exReg1 exCache "example.com/app:v1"
      exRef .anonymous (by decide) rfl (by decide)).1⟩

end SpinOci
